import Mathlib

/-!
Verification of the rearc_quest data pipeline.

Shallow embedding of:
- `part1/bls_sync.py` (`sync_bls_to_s3`): the sync reconciler that mirrors a
  remote directory listing into an object store, with upload/skip/delete logic
  keyed on content fingerprints;
- `part2/population_ingest.py` and `part4/lambda/ingestion/ingestion_handler.py`
  (`ingest_population_data`): the content-addressed idempotent ingest of one
  JSON payload;
- `part4/lambda/analytics/analytics_handler.py`: the three analytics reports
  (Task A population statistics, Task B best-year ranking, Task C unified
  left-join report) and the orchestrator that runs them under separate failure
  boundaries.

Conventions of the embedding:
- byte strings are `List Nat`; the MD5 fingerprint function is an abstract
  parameter `md5 : List Nat → Nat` (only equality of fingerprints matters to
  the code; S3 assigns `ETag = md5(body)` for single-part puts);
- the object store is an association list `List (String × Nat)` of
  (key, fingerprint) pairs in listing order; Python dicts built by repeated
  assignment are modelled by lookup-last (`dictGet`);
- network and store faults are inputs: the per-run environment records the
  directory-listing outcome, the per-file fetch outcomes, and which put/delete
  calls succeed;
- Python string operations (`str.replace` with deletion, `str.lstrip`,
  `os.path.basename`, substring containment) are implemented by structural
  recursion on `List Char` so that all definitions evaluate by kernel
  reduction;
- pandas floats are modelled as `ℚ`, with NaN modelled as `Option.none` where
  the code's NaN handling is observable (coercion failures, skipna sums/means).
-/

/-! ## Python string primitives -/

/-- If `pat` is a leading segment of `s`, return the remainder of `s` after it. -/
def chopped? (pat s : List Char) : Option (List Char) :=
  match pat, s with
  | [], s => some s
  | _ :: _, [] => none
  | p :: ps, c :: cs => if p = c then chopped? ps cs else none

/-- Fuel-driven scan deleting every non-overlapping occurrence of `pat`,
left to right, as Python `s.replace(pat, '')` does.  With `fuel = s.length`
the fuel never runs out for nonempty `pat`; for empty `pat` the fuel path
returns `s`, which is also Python's answer for `s.replace('', '')`. -/
def replaceDelAux (pat : List Char) : Nat → List Char → List Char
  | _, [] => []
  | 0, s => s
  | fuel + 1, c :: cs =>
    match chopped? pat (c :: cs) with
    | some rest => replaceDelAux pat fuel rest
    | none => c :: replaceDelAux pat fuel cs

/-- Python `s.replace(pat, '')`. -/
def pyReplaceDel (s pat : String) : String :=
  String.mk (replaceDelAux pat.toList s.toList.length s.toList)

/-- Python `s.lstrip('/')` on character lists. -/
def dropSlashes : List Char → List Char
  | [] => []
  | c :: cs => if c = '/' then dropSlashes cs else c :: cs

/-- Python `s.lstrip('/')`. -/
def pyLstripSlash (s : String) : String :=
  String.mk (dropSlashes s.toList)

/-- Accumulating scan: keep the characters after the last `'/'`. -/
def basenameGo (cur : List Char) : List Char → List Char
  | [] => cur
  | c :: cs => if c = '/' then basenameGo [] cs else basenameGo (cur ++ [c]) cs

/-- Python `os.path.basename` (final path segment; empty for a trailing slash). -/
def pyBasename (s : String) : String :=
  String.mk (basenameGo [] s.toList)

/-- Python substring containment `pat in s` on character lists. -/
def hasSubL (pat : List Char) : List Char → Bool
  | [] => decide (pat = [])
  | c :: cs => (chopped? pat (c :: cs)).isSome || hasSubL pat cs

/-- Python substring containment `pat in s`. -/
def pyContains (s pat : String) : Bool :=
  hasSubL pat.toList s.toList

/-- Lookup in a Python dict built by repeated assignment: the last binding of a
key wins. -/
def dictGet (m : List (String × Nat)) (k : String) : Option Nat :=
  List.lookup k m.reverse

/-! ## Part 1: `sync_bls_to_s3` (src/part1/bls_sync.py)

The store is the S3 listing under the configured bucket/prefix, as
(key, ETag) pairs.  One `SyncEnv` fixes everything the run observes from the
outside world: the fingerprint function, the directory-listing fetch outcome
(`none` models the `except` branch that returns the zero stats), the per-file
fetch outcomes, and which put/delete calls succeed (a `false` models the
exception branch of the corresponding call). -/

/-- The object store: (key, fingerprint) pairs in listing order. -/
abbrev Store := List (String × Nat)

/-- The `stats` dict of `sync_bls_to_s3`. -/
structure Stats where
  uploaded : Nat
  failed : Nat
  skipped : Nat
  deleted : Nat
deriving DecidableEq, Repr

/-- The initial all-zero stats object. -/
def stats0 : Stats := ⟨0, 0, 0, 0⟩

/-- External-world outcomes observed by one sync run. -/
structure SyncEnv where
  md5 : List Nat → Nat
  dirListing : Option (List String)
  fetchFile : String → Option (List Nat)
  putOk : String → Bool
  deleteOk : String → Bool

/-- Key normalization `obj['Key'].replace(s3_prefix, '').lstrip('/')` used both
by `get_existing_files` and by the deletion pass. -/
def normName (pfx key : String) : String :=
  pyLstripSlash (pyReplaceDel key pfx)

/-- `get_existing_files`: the dict mapping normalized names to stored ETags. -/
def get_existing_files (pfx : String) (store : Store) : List (String × Nat) :=
  store.map (fun p => (normName pfx p.1, p.2))

/-- `file_needs_upload`: upload when the normalized name is absent or the
stored fingerprint differs from the MD5 of the fetched content. -/
def file_needs_upload (md5f : List Nat → Nat) (filename : String)
    (content : List Nat) (existing : List (String × Nat)) : Bool :=
  let norm := pyLstripSlash filename
  match dictGet existing norm with
  | none => true
  | some e => decide (e ≠ md5f content)

/-- `s3_key = f"{s3_prefix}{basename}" if s3_prefix else basename`. -/
def s3KeyOf (pfx bn : String) : String :=
  if pfx = "" then bn else pfx ++ bn

/-- `put_object`: overwrite the fingerprint in place, or append a new object;
S3 assigns `ETag = md5(body)` for a single-part put. -/
def storePut (store : Store) (k : String) (v : Nat) : Store :=
  if store.any (fun p => p.1 == k) then
    store.map (fun p => if p.1 = k then (k, v) else p)
  else
    store ++ [(k, v)]

/-- The link filter of the directory parse:
`if href and 'pr.' in href and href not in ['../', '/']`. -/
def parseFiles (links : List String) : List String :=
  links.filter (fun h => h != "" && pyContains h "pr." && h != "../" && h != "/")

/-- The per-file upload loop: fetch, decide against the pre-run `existing`
dict, then skip / put / count a failure.  A fetch or put exception lands in
`failed` and the loop continues. -/
def uploadLoop (env : SyncEnv) (pfx : String) (existing : List (String × Nat)) :
    List String → Store → Stats → Store × Stats
  | [], store, st => (store, st)
  | f :: rest, store, st =>
    let bn := pyBasename f
    let key := s3KeyOf pfx bn
    match env.fetchFile f with
    | none => uploadLoop env pfx existing rest store { st with failed := st.failed + 1 }
    | some content =>
      if file_needs_upload env.md5 bn content existing then
        if env.putOk key then
          uploadLoop env pfx existing rest (storePut store key (env.md5 content))
            { st with uploaded := st.uploaded + 1 }
        else
          uploadLoop env pfx existing rest store { st with failed := st.failed + 1 }
      else
        uploadLoop env pfx existing rest store { st with skipped := st.skipped + 1 }

/-- The deletion pass: re-list the store, delete every object whose normalized
name is not a current remote basename; a delete failure is logged and the pass
continues with the object left in place. -/
def deleteLoop (env : SyncEnv) (pfx : String) (cur : List String) :
    Store → Stats → Store × Stats
  | [], st => ([], st)
  | (k, e) :: rest, st =>
    if normName pfx k ∈ cur then
      let r := deleteLoop env pfx cur rest st
      ((k, e) :: r.1, r.2)
    else if env.deleteOk k then
      deleteLoop env pfx cur rest { st with deleted := st.deleted + 1 }
    else
      let r := deleteLoop env pfx cur rest st
      ((k, e) :: r.1, r.2)

/-- `sync_bls_to_s3`: list existing objects, fetch the directory (an exception
returns the zero stats object untouched), parse and filter the links, run the
upload loop against the pre-run dict, then run the deletion pass against the
fresh store.  Returns the final store state and the stats. -/
def sync_bls_to_s3 (env : SyncEnv) (pfx : String) (store : Store) : Store × Stats :=
  let existing := get_existing_files pfx store
  match env.dirListing with
  | none => (store, stats0)
  | some links =>
    let files := parseFiles links
    let r1 := uploadLoop env pfx existing files store stats0
    let cur := files.map pyBasename
    deleteLoop env pfx cur r1.1 r1.2

/-- The upload decision for one remote item, as a function of the per-run
environment and the pre-run dict: fetch, then `file_needs_upload`.  (Only
meaningful for items whose fetch succeeds; a failed fetch is counted in
`failed` by the loop.) -/
def needsUpload (env : SyncEnv) (existing : List (String × Nat)) (f : String) : Bool :=
  match env.fetchFile f with
  | some c => file_needs_upload env.md5 (pyBasename f) c existing
  | none => true

/-- A run whose directory-listing fetch fails, at concrete inputs. -/
def envC1w : SyncEnv :=
  ⟨fun c => c.length, none, fun _ => some [1], fun _ => true, fun _ => true⟩

/-- A run whose directory-listing fetch succeeds but discovers zero remote
items. -/
def envC1cex : SyncEnv :=
  ⟨fun c => c.length, some [], fun _ => some [1], fun _ => true, fun _ => true⟩

/-- A run with one remote item whose per-item fetch fails. -/
def envC2cex : SyncEnv :=
  ⟨fun c => c.length, some ["pr.data.0"], fun _ => none, fun _ => true, fun _ => true⟩

/-- Witness for C2 at a concrete run: two remote items, one changed and one
unchanged, all fetches and puts succeeding. -/
def envC2w : SyncEnv :=
  ⟨fun c => c.length, some ["pr.data.0", "pr.data.1"],
   fun f => if f = "pr.data.0" then some [1, 2] else some [3],
   fun _ => true, fun _ => true⟩

/-- Witness for C5 at a concrete run: the store holds one current object, one
stale object whose delete succeeds, and one stale object whose delete fails. -/
def envC5w : SyncEnv :=
  ⟨fun c => c.length, some ["pr.data.0"], fun _ => some [1],
   fun _ => true, fun k => k != "pr.stale.locked"⟩

/-! ## Parts 2 and 4: `ingest_population_data`

Both ingestors fetch the JSON payload, canonicalize it
(`json.dumps(data, sort_keys=True).encode()` — modelled as the given canonical
byte string), fingerprint it, and compare against the stored object's ETag via
`head_object` on the fixed key `population_data.json`.  The store at that key
is `Option Nat` (the fingerprint, if the object exists).  `headFault` models
`head_object` raising an error other than not-found; `putOk` models the
`put_object` try/except. -/

/-- Result statuses of the ingestors and reports. -/
inductive Status where
  | UPDATED
  | SKIPPED
  | ERROR
  | SUCCESS
deriving DecidableEq, Repr

/-- Outcome of the `head_object` call. -/
inductive HeadOutcome where
  | found : Nat → HeadOutcome
  | notFound
  | errOther
deriving DecidableEq, Repr

/-- `head_object` against the store: the object's fingerprint when it exists,
not-found when it does not, or a fault other than not-found. -/
def runHead (store : Option Nat) (headFault : Bool) : HeadOutcome :=
  if headFault then .errOther
  else match store with
    | some e => .found e
    | none => .notFound

/-- Observable outcome of one ingest call: the returned status and hash, the
store state at the target key afterwards, and how many writes were made. -/
structure IngestOut where
  status : Status
  hash : Option Nat
  store : Option Nat
  writes : Nat
deriving DecidableEq, Repr

/-- `part2/population_ingest.py : ingest_population_data`.  The head check is
wrapped in `try: ... except Exception: pass`, so any head failure (including a
store fault that is not not-found) falls through to the upload. -/
def part2_ingest_population_data (md5f : List Nat → Nat)
    (apiResult : Option (List Nat)) (headFault putOk : Bool)
    (store : Option Nat) : IngestOut :=
  match apiResult with
  | none => ⟨.ERROR, none, store, 0⟩
  | some data =>
    let h := md5f data
    let skip := match runHead store headFault with
      | .found e => decide (e = h)
      | _ => false
    if skip then ⟨.SKIPPED, some h, store, 0⟩
    else if putOk then ⟨.UPDATED, some h, some h, 1⟩
    else ⟨.ERROR, none, store, 0⟩

/-- `part4/lambda/ingestion/ingestion_handler.py : ingest_population_data`.
The head check distinguishes a 404 (proceed to upload) from any other client
error (return ERROR without writing). -/
def part4_ingest_population_data (md5f : List Nat → Nat)
    (apiResult : Option (List Nat)) (headFault putOk : Bool)
    (store : Option Nat) : IngestOut :=
  match apiResult with
  | none => ⟨.ERROR, none, store, 0⟩
  | some data =>
    let h := md5f data
    match runHead store headFault with
    | .found e =>
      if e = h then ⟨.SKIPPED, some h, store, 0⟩
      else if putOk then ⟨.UPDATED, some h, some h, 1⟩
      else ⟨.ERROR, none, store, 0⟩
    | .notFound =>
      if putOk then ⟨.UPDATED, some h, some h, 1⟩
      else ⟨.ERROR, none, store, 0⟩
    | .errOther => ⟨.ERROR, none, store, 0⟩

/-- A concrete fingerprint function for witness runs. -/
def md5c : List Nat → Nat := fun c => c.sum * 100 + c.length

/-! ## Infrastructure for the idempotence claim (C3)

`lastFp pfx s bn` is the value the normalized-name dict of store `s` gives for
`bn` — the fingerprint of the last listed object whose normalized key is
`bn`.  The upload decision of a second run reads exactly this dict. -/

/-- The dict view of a store at one normalized name. -/
def lastFp (pfx : String) (s : Store) (bn : String) : Option Nat :=
  dictGet (get_existing_files pfx s) bn

/-- The dict view of the store at a remote item's basename after the upload
loop, as a function of the pre-run dict and the item's outcomes: a successful
put leaves the new fingerprint, everything else leaves the pre-run value. -/
def afterFp (env : SyncEnv) (pfx : String) (existing : List (String × Nat))
    (f : String) : Option Nat :=
  match env.fetchFile f with
  | none => dictGet existing (pyBasename f)
  | some c =>
    if file_needs_upload env.md5 (pyBasename f) c existing then
      if env.putOk (s3KeyOf pfx (pyBasename f)) then some (env.md5 c)
      else dictGet existing (pyBasename f)
    else dictGet existing (pyBasename f)

/-- A concrete healthy environment for the idempotence witness: two remote
items, all operations succeed. -/
def envC3w : SyncEnv :=
  ⟨md5c, some ["pr.data.0", "pr.data.1"],
   fun f => if f = "pr.data.0" then some [1, 2] else some [9],
   fun _ => true, fun _ => true⟩

/-- A concrete pre-run store for the idempotence witness: one current object
at its canonical key with a stale fingerprint, and one stale object. -/
def storeC3w : Store :=
  [("bls-data/pr.data.1", 5), ("bls-data/old.csv", 9)]

/-! ## Part 4 analytics: `analytics_handler.py`

Loaded tables are modelled as frames: a list of column names (the dataframe
schema, used by the column-presence checks, with a missing-column access
modelled as a raised `KeyError` via `Except.error`) plus typed rows.  After
the loader's normalization, `series_id`/`period` are trimmed strings, `year`
is a nullable integer and `value`/`population` are nullable numerics
(`pd.to_numeric(..., errors='coerce')`); floats are modelled as `ℚ`. -/

/-- One normalized time-series row. -/
structure BlsRow where
  series_id : String
  year : Option Int
  period : String
  value : Option ℚ
deriving DecidableEq, Repr

/-- The loaded time-series table with its column schema. -/
structure BlsFrame where
  cols : List String
  rows : List BlsRow
deriving DecidableEq, Repr

/-- One normalized population row. -/
structure PopRow where
  year : Option Int
  population : Option ℚ
deriving DecidableEq, Repr

/-- The loaded population table with its column schema. -/
structure PopFrame where
  cols : List String
  rows : List PopRow
deriving DecidableEq, Repr

/-- Task A result.  `svar` is the sample variance (`ddof=1`); the handler
reports its square root as `std`, which carries the same information.  The
ERROR result zeroes the payload fields. -/
structure AReport where
  status : Status
  mean : ℚ
  svar : ℚ
  years : List Int
  rowCount : Nat
deriving DecidableEq, Repr

/-- The Task A filter `(df_pop['year'] >= 2013) & (df_pop['year'] <= 2018)`;
a null year compares as false. -/
def popYearInRange (r : PopRow) : Bool :=
  match r.year with
  | some y => decide (2013 ≤ y) && decide (y ≤ 2018)
  | none => false

/-- `task_a_population_stats`: filter to [2013, 2018], ERROR on an empty
result, otherwise the skipna mean and sample variance of `population`, the
sorted distinct years and the row count.  Missing columns raise, in the order
the code touches them. -/
def task_a_population_stats (pop : PopFrame) : Except String AReport :=
  if "year" ∈ pop.cols then
    let filtered := pop.rows.filter popYearInRange
    if filtered.length = 0 then
      Except.ok ⟨Status.ERROR, 0, 0, [], 0⟩
    else if "population" ∈ pop.cols then
      let vals := filtered.filterMap (fun r => r.population)
      let m := vals.sum / (vals.length : ℚ)
      let sv := (vals.map (fun x => (x - m) ^ 2)).sum / ((vals.length : ℚ) - 1)
      let yrs := List.insertionSort (fun a b : Int => a ≤ b)
        ((filtered.filterMap (fun r => r.year)).dedup)
      Except.ok ⟨Status.SUCCESS, m, sv, yrs, filtered.length⟩
    else Except.error "KeyError: population"
  else Except.error "KeyError: year"

/-- One row of the annual sums / best-year tables of Task B. -/
structure BEntry where
  series_id : String
  year : Int
  value : ℚ
deriving DecidableEq, Repr

/-- The rows entering the Task B groupby: rows with a null year are dropped
(pandas drops null group keys) and a null value contributes 0 to the sum
(skipna). -/
def bKeyRows (bls : BlsFrame) : List (String × Int × ℚ) :=
  bls.rows.filterMap (fun r =>
    match r.year with
    | some y => some (r.series_id, y, r.value.getD 0)
    | none => none)

/-- First-occurrence deduplication of group keys. -/
def dedupKeysFirst (l : List (String × Int)) : List (String × Int) :=
  l.foldl (fun acc x => if x ∈ acc then acc else acc ++ [x]) []

/-- `df_bls.groupby(['series_id', 'year'], as_index=False)['value'].sum()`:
one entry per (series_id, year) group holding the group's value sum. -/
def annualSums (bls : BlsFrame) : List BEntry :=
  (dedupKeysFirst ((bKeyRows bls).map (fun t => (t.1, t.2.1)))).map
    (fun k => ⟨k.1, k.2,
      (((bKeyRows bls).filter (fun t => decide (t.1 = k.1) && decide (t.2.1 = k.2))).map
        (fun t => t.2.2)).sum⟩)

/-- The descending-by-value sort order of `sort_values('value', ascending=False)`. -/
def valGe (a b : BEntry) : Prop := b.value ≤ a.value

instance : DecidableRel valGe := fun a b => inferInstanceAs (Decidable (b.value ≤ a.value))

instance : IsTotal BEntry valGe := ⟨fun a b => le_total b.value a.value⟩

instance : IsTrans BEntry valGe := ⟨fun _ _ _ hab hbc => le_trans hbc hab⟩

/-- `drop_duplicates(subset=['series_id'], keep='first')`: keep the first
entry of each series. -/
def dropDupSeries (seen : List String) : List BEntry → List BEntry
  | [] => []
  | e :: es =>
    if e.series_id ∈ seen then dropDupSeries seen es
    else e :: dropDupSeries (e.series_id :: seen) es

/-- Task B result: the per-series best entries, a ten-entry preview in
`results`, and the counts. -/
structure BReport where
  status : Status
  totalSeries : Nat
  results : List BEntry
  totalResults : Nat
deriving DecidableEq, Repr

/-- `task_b_best_year_report`: ERROR when a required column is missing, else
group, sum, sort descending by value and keep the first entry per series. -/
def task_b_best_year_report (bls : BlsFrame) : BReport :=
  if "series_id" ∈ bls.cols ∧ "year" ∈ bls.cols ∧ "value" ∈ bls.cols then
    let best := dropDupSeries [] (List.insertionSort valGe (annualSums bls))
    ⟨Status.SUCCESS, best.length, best.take 10, best.length⟩
  else ⟨Status.ERROR, 0, [], 0⟩

/-- One row of the unified (merged) Task C table. -/
structure CRow where
  series_id : String
  year : Option Int
  period : String
  value : Option ℚ
  population : Option ℚ
deriving DecidableEq, Repr

/-- `df_bls.merge(df_pop[['year','population']], on='year', how='left')`:
every left row is kept; a row with matching population rows is repeated once
per match, an unmatched row gets a null population.  (pandas matches null
keys to null keys in a merge.) -/
def mergeLeftOnYear (bls : List BlsRow) (pop : List PopRow) : List CRow :=
  bls.flatMap (fun r =>
    match pop.filter (fun p => decide (p.year = r.year)) with
    | [] => [⟨r.series_id, r.year, r.period, r.value, none⟩]
    | m :: ms => (m :: ms).map (fun p => ⟨r.series_id, r.year, r.period, r.value, p.population⟩))

/-- Task C result.  The ERROR results zero the payload fields. -/
structure CReport where
  status : Status
  series_id : String
  period : String
  rowCount : Nat
  results : List CRow
deriving DecidableEq, Repr

/-- `task_c_unified_report`: left-merge on year, filter to the requested
(series_id, period), ERROR on an empty filter result, ERROR again when the
`value` output column is missing; missing join/filter columns raise.  The
model assumes the BLS frame has no `population` column of its own (pandas
would rename the joined columns in that case). -/
def task_c_unified_report (bls : BlsFrame) (pop : PopFrame) (sid per : String) :
    Except String CReport :=
  if "year" ∈ pop.cols ∧ "population" ∈ pop.cols then
    if "year" ∈ bls.cols then
      let merged := mergeLeftOnYear bls.rows pop.rows
      if "series_id" ∈ bls.cols ∧ "period" ∈ bls.cols then
        let filtered := merged.filter
          (fun r => decide (r.series_id = sid) && decide (r.period = per))
        if filtered.length = 0 then Except.ok ⟨Status.ERROR, sid, per, 0, []⟩
        else if "value" ∈ bls.cols then
          Except.ok ⟨Status.SUCCESS, sid, per, filtered.length, filtered⟩
        else Except.ok ⟨Status.ERROR, sid, per, 0, []⟩
      else Except.error "KeyError: series_id or period"
    else Except.error "KeyError: year"
  else Except.error "KeyError: population frame columns"

/-- The three per-task results and the aggregated success flag of the
analytics `lambda_handler`. -/
structure PipelineRes where
  task_a : AReport
  task_b : BReport
  task_c : CReport
  success : Bool
deriving DecidableEq, Repr

/-- The handler's per-task failure boundary for Task A: a raised exception
becomes an ERROR-status result. -/
def wrapA : Except String AReport → AReport
  | Except.ok r => r
  | Except.error _ => ⟨Status.ERROR, 0, 0, [], 0⟩

/-- The handler's per-task failure boundary for Task C. -/
def wrapC (sid per : String) : Except String CReport → CReport
  | Except.ok r => r
  | Except.error _ => ⟨Status.ERROR, sid, per, 0, []⟩

/-- The task-execution block of the analytics `lambda_handler`: run the three
reports under separate failure boundaries over the loaded frames, then set
`success` to all three having SUCCESS status. -/
def run_analytics (bls : BlsFrame) (pop : PopFrame) : PipelineRes :=
  let a := wrapA (task_a_population_stats pop)
  let b := task_b_best_year_report bls
  let c := wrapC "PRS30006032" "Q01" (task_c_unified_report bls pop "PRS30006032" "Q01")
  ⟨a, b, c,
    decide (a.status = Status.SUCCESS) && decide (b.status = Status.SUCCESS) &&
      decide (c.status = Status.SUCCESS)⟩

/-! ## Claim C8: Task A population statistics -/

/-- The population frame of the C8 scenario. -/
def popC8w : PopFrame :=
  ⟨["year", "population"],
   [⟨some 2013, some 300⟩, ⟨some 2014, some 305⟩, ⟨some 2015, some 310⟩]⟩

/-- A population frame with no rows in [2013, 2018]. -/
def popC8empty : PopFrame := ⟨["year", "population"], [⟨some 2020, some 50⟩]⟩

/-- The time-series frame of the C6 witness: two matching rows, one of them
with a year absent from the population table. -/
def blsC6w : BlsFrame :=
  ⟨["series_id", "year", "period", "value"],
   [⟨"PRS30006032", some 2020, "Q01", some 5⟩,
    ⟨"PRS30006032", some 2021, "Q01", some 6⟩]⟩

/-- The population frame of the C6 witness: only year 2020 present. -/
def popC6w : PopFrame := ⟨["year", "population"], [⟨some 2020, some 50⟩]⟩

/-- The time-series frame of the C7 scenario: S1 with 2020↦100, 2021↦50 and
S2 with 2020↦10. -/
def blsC7w : BlsFrame :=
  ⟨["series_id", "year", "period", "value"],
   [⟨"S1", some 2020, "Q01", some 100⟩,
    ⟨"S1", some 2021, "Q02", some 50⟩,
    ⟨"S2", some 2020, "Q01", some 10⟩]⟩

/-! ## Claim C9: report isolation and overall success -/

/-- A population frame whose rows all fall outside [2013, 2018], so Task A
reports ERROR while the other tasks can succeed. -/
def popC9w : PopFrame := ⟨["year", "population"], [⟨some 2020, some 50⟩]⟩

/-- A time-series frame on which Tasks B and C succeed. -/
def blsC9w : BlsFrame :=
  ⟨["series_id", "year", "period", "value"],
   [⟨"PRS30006032", some 2020, "Q01", some 5⟩]⟩

@[simp] theorem stats0_uploaded : stats0.uploaded = 0 := rfl

@[simp] theorem stats0_failed : stats0.failed = 0 := rfl

@[simp] theorem stats0_skipped : stats0.skipped = 0 := rfl

@[simp] theorem stats0_deleted : stats0.deleted = 0 := rfl

example : pyBasename "a/b/c.txt" = "c.txt" := by decide
example : pyBasename "pr.data.0.Current" = "pr.data.0.Current" := by decide
example : normName "bls-data/" "bls-data/pr.data.0" = "pr.data.0" := by decide
example : parseFiles ["../", "/", "pr.data.0", "notes.txt", ""] = ["pr.data.0"] := by decide

/-! ## Characterization of the two phases of the sync run -/

/-- The deletion pass keeps exactly the objects whose normalized name is a
current remote basename or whose delete call fails, and counts one successful
delete per removed object. -/
theorem deleteLoop_spec (env : SyncEnv) (pfx : String) (cur : List String)
    (store : Store) : ∀ st : Stats,
    deleteLoop env pfx cur store st =
      (store.filter (fun p => decide (normName pfx p.1 ∈ cur) || !env.deleteOk p.1),
       { st with deleted := st.deleted +
          (store.filter (fun p => !decide (normName pfx p.1 ∈ cur) && env.deleteOk p.1)).length }) := by
  induction store with
  | nil => intro st; simp [deleteLoop]
  | cons p rest ih =>
    intro st
    obtain ⟨k, e⟩ := p
    by_cases h1 : normName pfx k ∈ cur
    · simp [deleteLoop, h1, ih st]
    · by_cases h2 : env.deleteOk k
      · simp only [deleteLoop, if_neg h1, if_pos h2, ih]
        simp [h1, h2, Stats.mk.injEq]
        omega
      · simp [deleteLoop, h1, h2, ih st]

/-- The fetch/decide/put loop counts each remote item exactly once (into
uploaded, skipped or failed) and never touches the deleted counter. -/
theorem uploadLoop_total (env : SyncEnv) (pfx : String)
    (existing : List (String × Nat)) (files : List String) :
    ∀ (store : Store) (st : Stats),
      ((uploadLoop env pfx existing files store st).2.uploaded +
       (uploadLoop env pfx existing files store st).2.skipped +
       (uploadLoop env pfx existing files store st).2.failed =
        st.uploaded + st.skipped + st.failed + files.length) ∧
      (uploadLoop env pfx existing files store st).2.deleted = st.deleted := by
  induction files with
  | nil => intro store st; simp [uploadLoop]
  | cons f rest ih =>
    intro store st
    cases hf : env.fetchFile f with
    | none =>
      simp only [uploadLoop, hf]
      refine ⟨?_, (ih _ _).2⟩
      have := (ih store { st with failed := st.failed + 1 }).1
      simp at this ⊢
      omega
    | some c =>
      by_cases hn : file_needs_upload env.md5 (pyBasename f) c existing
      · by_cases hp : env.putOk (s3KeyOf pfx (pyBasename f))
        · simp only [uploadLoop, hf, if_pos hn, if_pos hp]
          refine ⟨?_, (ih _ _).2⟩
          have := (ih (storePut store (s3KeyOf pfx (pyBasename f)) (env.md5 c))
            { st with uploaded := st.uploaded + 1 }).1
          simp at this ⊢
          omega
        · simp only [uploadLoop, hf, if_pos hn, if_neg hp]
          refine ⟨?_, (ih _ _).2⟩
          have := (ih store { st with failed := st.failed + 1 }).1
          simp at this ⊢
          omega
      · simp only [uploadLoop, hf, if_neg hn]
        refine ⟨?_, (ih _ _).2⟩
        have := (ih store { st with skipped := st.skipped + 1 }).1
        simp at this ⊢
        omega

/-- When every per-item fetch and put succeeds, the loop uploads exactly the
items selected by `file_needs_upload` against the pre-run dict and skips the
rest, with no failures. -/
theorem uploadLoop_success_counts (env : SyncEnv) (pfx : String)
    (existing : List (String × Nat)) (files : List String)
    (hf : ∀ f ∈ files, (env.fetchFile f).isSome)
    (hp : ∀ f ∈ files, env.putOk (s3KeyOf pfx (pyBasename f)) = true) :
    ∀ (store : Store) (st : Stats),
      ((uploadLoop env pfx existing files store st).2.uploaded =
        st.uploaded + (files.filter (needsUpload env existing)).length) ∧
      ((uploadLoop env pfx existing files store st).2.skipped =
        st.skipped + (files.filter (fun f => !needsUpload env existing f)).length) ∧
      (uploadLoop env pfx existing files store st).2.failed = st.failed := by
  induction files with
  | nil => intro store st; simp [uploadLoop]
  | cons f rest ih =>
    intro store st
    have hf0 : (env.fetchFile f).isSome := hf f (by simp)
    have hp0 : env.putOk (s3KeyOf pfx (pyBasename f)) = true := hp f (by simp)
    have hfr : ∀ g ∈ rest, (env.fetchFile g).isSome := fun g hg => hf g (by simp [hg])
    have hpr : ∀ g ∈ rest, env.putOk (s3KeyOf pfx (pyBasename g)) = true :=
      fun g hg => hp g (by simp [hg])
    obtain ⟨c, hc⟩ := Option.isSome_iff_exists.mp hf0
    have hnu : needsUpload env existing f =
        file_needs_upload env.md5 (pyBasename f) c existing := by
      simp [needsUpload, hc]
    by_cases hn : file_needs_upload env.md5 (pyBasename f) c existing
    · simp only [uploadLoop, hc, if_pos hn, if_pos hp0]
      obtain ⟨h1, h2, h3⟩ := ih hfr hpr
        (storePut store (s3KeyOf pfx (pyBasename f)) (env.md5 c))
        { st with uploaded := st.uploaded + 1 }
      refine ⟨?_, ?_, ?_⟩ <;>
        simp [h1, h2, h3, List.filter, hnu, hn] <;> omega
    · simp only [uploadLoop, hc, if_neg hn]
      obtain ⟨h1, h2, h3⟩ := ih hfr hpr store { st with skipped := st.skipped + 1 }
      refine ⟨?_, ?_, ?_⟩ <;>
        simp [h1, h2, h3, List.filter, hnu, hn] <;> omega

/-- On a successful listing fetch, the run is the upload loop over the parsed
items followed by the deletion pass over its result. -/
theorem sync_eq_phases (env : SyncEnv) (pfx : String) (store : Store)
    (links : List String) (h : env.dirListing = some links) :
    sync_bls_to_s3 env pfx store =
      deleteLoop env pfx ((parseFiles links).map pyBasename)
        (uploadLoop env pfx (get_existing_files pfx store) (parseFiles links) store stats0).1
        (uploadLoop env pfx (get_existing_files pfx store) (parseFiles links) store stats0).2 := by
  simp only [sync_bls_to_s3, h]

/-! ## Claim C1: behaviour on zero discovered remote items -/

/-- C1 (amended): when the directory-listing fetch fails, `sync_bls_to_s3`
returns the stats object with all counts zero and leaves the store untouched —
it performs no uploads and no deletions. -/
theorem C1_listing_failure_returns_zero_stats (env : SyncEnv) (pfx : String)
    (store : Store) (h : env.dirListing = none) :
    sync_bls_to_s3 env pfx store = (store, stats0) := by
  simp [sync_bls_to_s3, h]

/-- Witness for C1 at a concrete environment and a one-object store. -/
theorem C1_listing_failure_returns_zero_stats_witness :
    envC1w.dirListing = none ∧
      sync_bls_to_s3 envC1w "" [("pr.data.0", 7)] = ([("pr.data.0", 7)], stats0) :=
  ⟨rfl, C1_listing_failure_returns_zero_stats envC1w "" [("pr.data.0", 7)] rfl⟩

/-- Counterexample to C1 as stated: a successful listing fetch that discovers
zero remote items (`parseFiles` returns `[]`) does not return all-zero stats
with the store untouched; it falls through to the deletion pass and deletes
every stored object under the prefix. -/
theorem C1_empty_listing_deletes_store :
    parseFiles [] = [] ∧
      sync_bls_to_s3 envC1cex "" [("pr.data.0", 7), ("pr.data.1", 9)] =
        ([], ⟨0, 0, 0, 2⟩) := by
  constructor <;> decide

/-! ## Claim C2: upload/skip decision rule and per-item accounting -/

/-- C2 (amended): every remote item in the parsed listing is counted in exactly
one of uploaded, skipped, failed; and when every per-item fetch and put
succeeds, there are no failures and an item is uploaded exactly when its
basename is absent from the pre-run dict or the stored fingerprint differs
from the MD5 of the fetched bytes, and skipped otherwise. -/
theorem C2_upload_skip_partition (env : SyncEnv) (pfx : String) (store : Store)
    (links : List String) (h : env.dirListing = some links) :
    (sync_bls_to_s3 env pfx store).2.uploaded +
        (sync_bls_to_s3 env pfx store).2.skipped +
        (sync_bls_to_s3 env pfx store).2.failed = (parseFiles links).length ∧
      ((∀ f ∈ parseFiles links, (env.fetchFile f).isSome) →
       (∀ f ∈ parseFiles links, env.putOk (s3KeyOf pfx (pyBasename f)) = true) →
        (sync_bls_to_s3 env pfx store).2.failed = 0 ∧
        (sync_bls_to_s3 env pfx store).2.uploaded =
          ((parseFiles links).filter
            (needsUpload env (get_existing_files pfx store))).length ∧
        (sync_bls_to_s3 env pfx store).2.skipped =
          ((parseFiles links).filter
            (fun f => !needsUpload env (get_existing_files pfx store) f)).length) := by
  have hsync : sync_bls_to_s3 env pfx store =
      deleteLoop env pfx ((parseFiles links).map pyBasename)
        (uploadLoop env pfx (get_existing_files pfx store) (parseFiles links) store stats0).1
        (uploadLoop env pfx (get_existing_files pfx store) (parseFiles links) store stats0).2 := by
    simp [sync_bls_to_s3, h]
  rw [hsync, deleteLoop_spec]
  constructor
  · have := uploadLoop_total env pfx (get_existing_files pfx store) (parseFiles links)
      store stats0
    simpa using this.1
  · intro hf hp
    have := uploadLoop_success_counts env pfx (get_existing_files pfx store)
      (parseFiles links) hf hp store stats0
    simp at this
    simp [this.1, this.2.1, this.2.2]

/-- Counterexample to C2 as stated: the listing has one remote item, but after
the run it is counted in neither uploaded nor skipped — its fetch raised, so
it is counted in failed. -/
theorem C2_failed_item_not_in_partition :
    parseFiles ["pr.data.0"] = ["pr.data.0"] ∧
      sync_bls_to_s3 envC2cex "" [] = ([], ⟨0, 1, 0, 0⟩) := by
  constructor <;> decide

/-- Witness for C2: at the concrete run, the partition and the success-case
counts are as the theorem states. -/
theorem C2_upload_skip_partition_witness :
    (sync_bls_to_s3 envC2w "" [("pr.data.1", 1)]).2.uploaded +
        (sync_bls_to_s3 envC2w "" [("pr.data.1", 1)]).2.skipped +
        (sync_bls_to_s3 envC2w "" [("pr.data.1", 1)]).2.failed =
        (parseFiles ["pr.data.0", "pr.data.1"]).length ∧
      ((∀ f ∈ parseFiles ["pr.data.0", "pr.data.1"], (envC2w.fetchFile f).isSome) →
       (∀ f ∈ parseFiles ["pr.data.0", "pr.data.1"],
          envC2w.putOk (s3KeyOf "" (pyBasename f)) = true) →
        (sync_bls_to_s3 envC2w "" [("pr.data.1", 1)]).2.failed = 0 ∧
        (sync_bls_to_s3 envC2w "" [("pr.data.1", 1)]).2.uploaded =
          ((parseFiles ["pr.data.0", "pr.data.1"]).filter
            (needsUpload envC2w (get_existing_files "" [("pr.data.1", 1)]))).length ∧
        (sync_bls_to_s3 envC2w "" [("pr.data.1", 1)]).2.skipped =
          ((parseFiles ["pr.data.0", "pr.data.1"]).filter
            (fun f => !needsUpload envC2w (get_existing_files "" [("pr.data.1", 1)]) f)).length) :=
  C2_upload_skip_partition envC2w "" [("pr.data.1", 1)] ["pr.data.0", "pr.data.1"] rfl

/-! ## Claim C5: deletion correctness -/

/-- C5: after the upload phase, the deletion pass removes exactly the objects
of the re-listed store whose normalized name is not a current remote basename
and whose delete call succeeds, counting each exactly once in `deleted`; an
object whose delete call fails stays in the store but the pass continues with
the remaining objects. -/
theorem C5_deletion_correctness (env : SyncEnv) (pfx : String) (store : Store)
    (links : List String) (h : env.dirListing = some links) :
    sync_bls_to_s3 env pfx store =
      ((uploadLoop env pfx (get_existing_files pfx store) (parseFiles links) store stats0).1.filter
        (fun p => decide (normName pfx p.1 ∈ (parseFiles links).map pyBasename) ||
          !env.deleteOk p.1),
       { (uploadLoop env pfx (get_existing_files pfx store) (parseFiles links) store stats0).2 with
         deleted :=
          ((uploadLoop env pfx (get_existing_files pfx store) (parseFiles links) store stats0).1.filter
            (fun p => !decide (normName pfx p.1 ∈ (parseFiles links).map pyBasename) &&
              env.deleteOk p.1)).length }) := by
  have hz : (uploadLoop env pfx (get_existing_files pfx store) (parseFiles links)
      store stats0).2.deleted = 0 :=
    (uploadLoop_total env pfx (get_existing_files pfx store) (parseFiles links) store stats0).2
  have hsync : sync_bls_to_s3 env pfx store =
      deleteLoop env pfx ((parseFiles links).map pyBasename)
        (uploadLoop env pfx (get_existing_files pfx store) (parseFiles links) store stats0).1
        (uploadLoop env pfx (get_existing_files pfx store) (parseFiles links) store stats0).2 := by
    simp [sync_bls_to_s3, h]
  rw [hsync, deleteLoop_spec, hz]
  simp

/-- Witness for C5: the theorem applied at the concrete run. -/
theorem C5_deletion_correctness_witness :
    sync_bls_to_s3 envC5w ""
        [("pr.data.0", 1), ("pr.stale.a", 5), ("pr.stale.locked", 6)] =
      ((uploadLoop envC5w ""
          (get_existing_files "" [("pr.data.0", 1), ("pr.stale.a", 5), ("pr.stale.locked", 6)])
          (parseFiles ["pr.data.0"])
          [("pr.data.0", 1), ("pr.stale.a", 5), ("pr.stale.locked", 6)] stats0).1.filter
        (fun p => decide (normName "" p.1 ∈ (parseFiles ["pr.data.0"]).map pyBasename) ||
          !envC5w.deleteOk p.1),
       { (uploadLoop envC5w ""
            (get_existing_files "" [("pr.data.0", 1), ("pr.stale.a", 5), ("pr.stale.locked", 6)])
            (parseFiles ["pr.data.0"])
            [("pr.data.0", 1), ("pr.stale.a", 5), ("pr.stale.locked", 6)] stats0).2 with
         deleted :=
          ((uploadLoop envC5w ""
              (get_existing_files "" [("pr.data.0", 1), ("pr.stale.a", 5), ("pr.stale.locked", 6)])
              (parseFiles ["pr.data.0"])
              [("pr.data.0", 1), ("pr.stale.a", 5), ("pr.stale.locked", 6)] stats0).1.filter
            (fun p => !decide (normName "" p.1 ∈ (parseFiles ["pr.data.0"]).map pyBasename) &&
              envC5w.deleteOk p.1)).length }) :=
  C5_deletion_correctness envC5w ""
    [("pr.data.0", 1), ("pr.stale.a", 5), ("pr.stale.locked", 6)] ["pr.data.0"] rfl

/-! ## Claim C4: content-addressed idempotent ingest -/

/-- C4: for both ingestors, with the head check answering from the store: if
the stored fingerprint equals the canonical payload's fingerprint the call
returns SKIPPED with that fingerprint and performs no write; otherwise (absent
or different, with the put succeeding) it performs one write and returns
UPDATED.  Consequently two successive calls on a byte-identical payload
starting from an empty key return UPDATED then SKIPPED with the same
fingerprint and perform exactly one write in total. -/
theorem C4_idempotent_ingest (md5f : List Nat → Nat) (data : List Nat)
    (store : Option Nat) :
    (store = some (md5f data) →
      part2_ingest_population_data md5f (some data) false true store =
        ⟨.SKIPPED, some (md5f data), store, 0⟩ ∧
      part4_ingest_population_data md5f (some data) false true store =
        ⟨.SKIPPED, some (md5f data), store, 0⟩) ∧
    (store ≠ some (md5f data) →
      part2_ingest_population_data md5f (some data) false true store =
        ⟨.UPDATED, some (md5f data), some (md5f data), 1⟩ ∧
      part4_ingest_population_data md5f (some data) false true store =
        ⟨.UPDATED, some (md5f data), some (md5f data), 1⟩) ∧
    (part2_ingest_population_data md5f (some data) false true none =
        ⟨.UPDATED, some (md5f data), some (md5f data), 1⟩ ∧
      part2_ingest_population_data md5f (some data) false true
          (part2_ingest_population_data md5f (some data) false true none).store =
        ⟨.SKIPPED, some (md5f data), some (md5f data), 0⟩ ∧
      part4_ingest_population_data md5f (some data) false true none =
        ⟨.UPDATED, some (md5f data), some (md5f data), 1⟩ ∧
      part4_ingest_population_data md5f (some data) false true
          (part4_ingest_population_data md5f (some data) false true none).store =
        ⟨.SKIPPED, some (md5f data), some (md5f data), 0⟩) := by
  refine ⟨?_, ?_, ?_⟩
  · intro hs
    subst hs
    constructor <;> simp [part2_ingest_population_data, part4_ingest_population_data, runHead]
  · intro hs
    cases store with
    | none =>
      constructor <;> simp [part2_ingest_population_data, part4_ingest_population_data, runHead]
    | some e =>
      have he : e ≠ md5f data := fun h => hs (by rw [h])
      constructor <;>
        simp [part2_ingest_population_data, part4_ingest_population_data, runHead, he]
  · refine ⟨?_, ?_, ?_, ?_⟩ <;>
      simp [part2_ingest_population_data, part4_ingest_population_data, runHead]

/-- Witness for C4: at a concrete payload, a matching stored fingerprint is
SKIPPED without a write, a missing object is written once with UPDATED, and
the run-twice scenario returns UPDATED then SKIPPED with one write total. -/
theorem C4_idempotent_ingest_witness :
    (part2_ingest_population_data md5c (some [3]) false true (some (md5c [3])) =
        ⟨.SKIPPED, some (md5c [3]), some (md5c [3]), 0⟩ ∧
      part4_ingest_population_data md5c (some [3]) false true (some (md5c [3])) =
        ⟨.SKIPPED, some (md5c [3]), some (md5c [3]), 0⟩) ∧
    (part2_ingest_population_data md5c (some [3]) false true none =
        ⟨.UPDATED, some (md5c [3]), some (md5c [3]), 1⟩ ∧
      part2_ingest_population_data md5c (some [3]) false true
          (part2_ingest_population_data md5c (some [3]) false true none).store =
        ⟨.SKIPPED, some (md5c [3]), some (md5c [3]), 0⟩ ∧
      part4_ingest_population_data md5c (some [3]) false true none =
        ⟨.UPDATED, some (md5c [3]), some (md5c [3]), 1⟩ ∧
      part4_ingest_population_data md5c (some [3]) false true
          (part4_ingest_population_data md5c (some [3]) false true none).store =
        ⟨.SKIPPED, some (md5c [3]), some (md5c [3]), 0⟩) :=
  ⟨(C4_idempotent_ingest md5c [3] (some (md5c [3]))).1 rfl,
   (C4_idempotent_ingest md5c [3] none).2.2⟩

/-! ## Claim C10: part2 vs part4 ingestors -/

/-- C10 (amended): on every input where the head check does not fail with an
error other than not-found, the two ingestors produce identical observable
outcomes (status, returned hash, store state, number of writes). -/
theorem C10_ingestors_agree_without_head_fault (md5f : List Nat → Nat)
    (apiResult : Option (List Nat)) (putOk : Bool) (store : Option Nat) :
    part2_ingest_population_data md5f apiResult false putOk store =
      part4_ingest_population_data md5f apiResult false putOk store := by
  cases apiResult with
  | none => rfl
  | some data =>
    cases store with
    | none =>
      by_cases hp : putOk <;>
        simp [part2_ingest_population_data, part4_ingest_population_data, runHead, hp]
    | some e =>
      by_cases he : e = md5f data
      · simp [part2_ingest_population_data, part4_ingest_population_data, runHead, he]
      · by_cases hp : putOk <;>
          simp [part2_ingest_population_data, part4_ingest_population_data, runHead, he, hp]

/-- Counterexample to C10 as stated: when the head check fails with an error
other than not-found, part2 swallows the error and uploads (UPDATED, one
write) while part4 returns ERROR without writing — the two ingestors are not
behaviourally equivalent on that case. -/
theorem C10_head_fault_divergence :
    part2_ingest_population_data md5c (some [3]) true true (some 999) =
        ⟨.UPDATED, some (md5c [3]), some (md5c [3]), 1⟩ ∧
      part4_ingest_population_data md5c (some [3]) true true (some 999) =
        ⟨.ERROR, none, some 999, 0⟩ ∧
      part2_ingest_population_data md5c (some [3]) true true (some 999) ≠
        part4_ingest_population_data md5c (some [3]) true true (some 999) := by
  refine ⟨by decide, by decide, by decide⟩

/-- Association-list lookup distributes over append, preferring the left
part. -/
theorem lookup_append (k : String) :
    ∀ l₁ l₂ : List (String × Nat),
      List.lookup k (l₁ ++ l₂) =
        match List.lookup k l₁ with
        | some v => some v
        | none => List.lookup k l₂ := by
  intro l₁ l₂
  induction l₁ with
  | nil => simp
  | cons a l ih =>
    obtain ⟨a1, a2⟩ := a
    by_cases h : k = a1
    · simp [List.lookup, h]
    · simp [List.lookup, beq_false_of_ne h, ih]

/-- Peeling one store entry off the front of the dict view: later entries win,
the head entry is the fallback. -/
theorem lastFp_cons (pfx : String) (p : String × Nat) (s : Store) (bn : String) :
    lastFp pfx (p :: s) bn =
      match lastFp pfx s bn with
      | some v => some v
      | none => if bn = normName pfx p.1 then some p.2 else none := by
  simp only [lastFp, dictGet, get_existing_files, List.map_cons, List.reverse_cons,
    lookup_append]
  cases List.lookup bn (List.map (fun p => (normName pfx p.1, p.2)) s).reverse with
  | none =>
    by_cases h : bn = normName pfx p.1
    · simp [List.lookup, h]
    · simp [List.lookup, beq_false_of_ne h, h]
  | some v => simp

/-- The dict view of an empty store. -/
theorem lastFp_nil (pfx : String) (bn : String) : lastFp pfx [] bn = none := rfl

/-- Updating every entry at key `k` does not change the dict view at a name
that is not the normalized name of `k`. -/
theorem lastFp_map_update (pfx : String) (k : String) (v : Nat) (bn : String)
    (hk : normName pfx k ≠ bn) :
    ∀ s : Store,
      lastFp pfx (s.map (fun q => if q.1 = k then (k, v) else q)) bn =
        lastFp pfx s bn := by
  intro s
  induction s with
  | nil => rfl
  | cons p rest ih =>
    simp only [List.map_cons, lastFp_cons, ih]
    by_cases hp : p.1 = k
    · have h1 : bn ≠ normName pfx k := Ne.symm hk
      have h2 : bn ≠ normName pfx p.1 := by rw [hp]; exact h1
      cases lastFp pfx rest bn <;> simp [hp, h1, h2]
    · simp [hp]

/-- Appending an entry whose normalized name is not `bn` does not change the
dict view at `bn`. -/
theorem lastFp_append_other (pfx : String) (k : String) (v : Nat) (bn : String)
    (hk : normName pfx k ≠ bn) :
    ∀ s : Store, lastFp pfx (s ++ [(k, v)]) bn = lastFp pfx s bn := by
  intro s
  induction s with
  | nil => simp [lastFp_nil, lastFp, dictGet, get_existing_files, List.lookup,
      beq_false_of_ne (Ne.symm hk)]
  | cons p rest ih =>
    rw [List.cons_append, lastFp_cons, lastFp_cons, ih]

/-- A put at a key with a different normalized name does not change the dict
view at `bn`. -/
theorem lastFp_storePut_frame (pfx : String) (k : String) (v : Nat) (bn : String)
    (hk : normName pfx k ≠ bn) (s : Store) :
    lastFp pfx (storePut s k v) bn = lastFp pfx s bn := by
  unfold storePut
  by_cases hmem : s.any (fun p => p.1 == k)
  · simp only [hmem, if_true]
    exact lastFp_map_update pfx k v bn hk s
  · simp only [hmem, if_false]
    exact lastFp_append_other pfx k v bn hk s

/-- A store with no entry normalizing to `bn` has an empty dict view there. -/
theorem lastFp_none (pfx : String) (bn : String) :
    ∀ s : Store, (∀ q ∈ s, normName pfx q.1 ≠ bn) → lastFp pfx s bn = none := by
  intro s
  induction s with
  | nil => intro _; rfl
  | cons p rest ih =>
    intro h
    rw [lastFp_cons, ih (fun q hq => h q (by simp [hq]))]
    have : bn ≠ normName pfx p.1 := Ne.symm (h p (by simp))
    simp [this]

/-- Appending an entry whose normalized name is `bn` makes it the dict view
at `bn`. -/
theorem lastFp_append_self (pfx : String) (k : String) (v : Nat) (bn : String)
    (hk : normName pfx k = bn) :
    ∀ s : Store, lastFp pfx (s ++ [(k, v)]) bn = some v := by
  intro s
  induction s with
  | nil => simp [lastFp, dictGet, get_existing_files, List.lookup, hk]
  | cons p rest ih =>
    rw [List.cons_append, lastFp_cons, ih]

/-- Updating every entry at key `k` (normalizing to `bn`) in a store where
every entry normalizing to `bn` has key `k`, and which contains at least one
entry at `k`, sets the dict view at `bn` to the written fingerprint. -/
theorem lastFp_map_update_self (pfx : String) (k : String) (v : Nat)
    (bn : String) (hk : normName pfx k = bn) :
    ∀ s : Store, (∀ p ∈ s, normName pfx p.1 = bn → p.1 = k) →
      s.any (fun p => p.1 == k) = true →
      lastFp pfx (s.map (fun q => if q.1 = k then (k, v) else q)) bn = some v := by
  intro s
  induction s with
  | nil => intro _ h; cases h
  | cons p rest ih =>
    intro huniq hmem
    rw [List.map_cons, lastFp_cons]
    by_cases hr : rest.any (fun p => p.1 == k) = true
    · rw [ih (fun q hq h => huniq q (List.mem_cons_of_mem p hq) h) hr]
    · have hp : p.1 = k := by
        simp only [List.any_cons, Bool.or_eq_true, beq_iff_eq] at hmem
        rcases hmem with h | h
        · exact h
        · exact absurd h hr
      have hrest_none :
          lastFp pfx (rest.map fun q => if q.1 = k then (k, v) else q) bn = none := by
        apply lastFp_none
        intro q hq
        obtain ⟨q0, hq0, rfl⟩ := List.mem_map.mp hq
        by_cases hq0k : q0.1 = k
        · exact absurd (List.any_eq_true.mpr ⟨q0, hq0, by simp [hq0k]⟩) hr
        · simp only [if_neg hq0k]
          intro hcontra
          exact hq0k (huniq q0 (List.mem_cons_of_mem p hq0) hcontra)
      rw [hrest_none]
      simp [hp, hk]

/-- A put at a key normalizing to `bn`, in a store where every entry
normalizing to `bn` lives at that same key, sets the dict view at `bn` to the
written fingerprint. -/
theorem lastFp_storePut_establish (pfx : String) (k : String) (v : Nat)
    (bn : String) (hk : normName pfx k = bn) :
    ∀ s : Store, (∀ p ∈ s, normName pfx p.1 = bn → p.1 = k) →
      lastFp pfx (storePut s k v) bn = some v := by
  intro s huniq
  unfold storePut
  by_cases hmem : s.any (fun p => p.1 == k)
  · simp only [hmem, if_true]
    exact lastFp_map_update_self pfx k v bn hk s huniq hmem
  · simp only [hmem, if_false]
    exact lastFp_append_self pfx k v bn hk s

/-- The basename scan never outputs a slash. -/
theorem basenameGo_no_slash :
    ∀ (l cur : List Char), '/' ∉ cur → '/' ∉ basenameGo cur l := by
  intro l
  induction l with
  | nil => intro cur h; simpa [basenameGo] using h
  | cons c cs ih =>
    intro cur h
    by_cases hc : c = '/'
    · simpa [basenameGo, hc] using ih [] (by simp)
    · have hcur : '/' ∉ cur ++ [c] := by
        intro hmem
        rcases List.mem_append.mp hmem with h1 | h1
        · exact h h1
        · exact hc (List.mem_singleton.mp h1).symm
      simpa [basenameGo, hc] using ih (cur ++ [c]) hcur

/-- Stripping leading slashes from a slash-free list is the identity. -/
theorem dropSlashes_of_no_slash : ∀ l : List Char, '/' ∉ l → dropSlashes l = l := by
  intro l h
  cases l with
  | nil => rfl
  | cons c cs =>
    have : c ≠ '/' := fun hc => h (by simp [hc])
    simp [dropSlashes, this]

/-- `lstrip('/')` is the identity on a basename: `os.path.basename` never
returns a string containing a slash. -/
theorem pyLstripSlash_pyBasename (s : String) :
    pyLstripSlash (pyBasename s) = pyBasename s := by
  unfold pyLstripSlash pyBasename
  rw [show (String.mk (basenameGo [] s.toList)).toList = basenameGo [] s.toList from rfl]
  rw [dropSlashes_of_no_slash _ (basenameGo_no_slash s.toList [] (by simp))]

/-- Membership after a put: an entry of the new store is an old entry or the
written one. -/
theorem mem_storePut {s : Store} {k : String} {v : Nat} {p : String × Nat}
    (h : p ∈ storePut s k v) : p ∈ s ∨ p = (k, v) := by
  unfold storePut at h
  by_cases hmem : s.any (fun q => q.1 == k)
  · rw [if_pos hmem] at h
    obtain ⟨q, hq, hqe⟩ := List.mem_map.mp h
    by_cases hqk : q.1 = k
    · right; rw [← hqe]; simp [hqk]
    · left; rw [← hqe]; simpa [hqk] using hq
  · rw [if_neg hmem] at h
    rcases List.mem_append.mp h with h1 | h1
    · exact Or.inl h1
    · exact Or.inr (List.mem_singleton.mp h1)

/-- Filtering with a predicate that keeps every entry normalizing to `bn`
does not change the dict view at `bn`. -/
theorem lastFp_filter_of_keep (pfx : String) (bn : String)
    (pred : String × Nat → Bool) :
    ∀ s : Store, (∀ p ∈ s, normName pfx p.1 = bn → pred p = true) →
      lastFp pfx (s.filter pred) bn = lastFp pfx s bn := by
  intro s
  induction s with
  | nil => intro _; rfl
  | cons p rest ih =>
    intro h
    have hrest := ih (fun q hq => h q (List.mem_cons_of_mem p hq))
    by_cases hp : pred p = true
    · rw [List.filter_cons_of_pos hp, lastFp_cons, lastFp_cons, hrest]
    · rw [List.filter_cons_of_neg (by simpa using hp), lastFp_cons, hrest]
      have hbn : bn ≠ normName pfx p.1 := by
        intro hbn
        exact hp (h p (by simp) hbn.symm)
      cases lastFp pfx rest bn <;> simp [hbn]

/-- The upload loop does not change the dict view at a name that is not the
normalized key of any processed item. -/
theorem uploadLoop_lastFp_frame (env : SyncEnv) (pfx : String)
    (existing : List (String × Nat)) (bn : String) :
    ∀ (files : List String) (store : Store) (st : Stats),
      (∀ f ∈ files, normName pfx (s3KeyOf pfx (pyBasename f)) ≠ bn) →
      lastFp pfx (uploadLoop env pfx existing files store st).1 bn =
        lastFp pfx store bn := by
  intro files
  induction files with
  | nil => intro store st _; rfl
  | cons f rest ih =>
    intro store st h
    have hf : normName pfx (s3KeyOf pfx (pyBasename f)) ≠ bn := h f (by simp)
    have hrest : ∀ g ∈ rest, normName pfx (s3KeyOf pfx (pyBasename g)) ≠ bn :=
      fun g hg => h g (List.mem_cons_of_mem f hg)
    cases hc : env.fetchFile f with
    | none => simp only [uploadLoop, hc]; exact ih _ _ hrest
    | some c =>
      by_cases hn : file_needs_upload env.md5 (pyBasename f) c existing
      · by_cases hp : env.putOk (s3KeyOf pfx (pyBasename f))
        · simp only [uploadLoop, hc, if_pos hn, if_pos hp]
          rw [ih _ _ hrest, lastFp_storePut_frame pfx _ _ bn hf]
        · simp only [uploadLoop, hc, if_pos hn, if_neg hp]
          exact ih _ _ hrest
      · simp only [uploadLoop, hc, if_neg hn]
        exact ih _ _ hrest

/-- A negative upload decision means the dict holds exactly the fetched
content's fingerprint. -/
theorem dictGet_of_not_needs (md5f : List Nat → Nat) (bn : String)
    (content : List Nat) (existing : List (String × Nat))
    (h : file_needs_upload md5f bn content existing = false) :
    dictGet existing (pyLstripSlash bn) = some (md5f content) := by
  have hdef : file_needs_upload md5f bn content existing =
      (match dictGet existing (pyLstripSlash bn) with
       | none => true
       | some e => decide (e ≠ md5f content)) := rfl
  rw [hdef] at h
  cases heq : dictGet existing (pyLstripSlash bn) with
  | none => rw [heq] at h; cases h
  | some e =>
    rw [heq] at h
    simp only [decide_eq_false_iff_not, Decidable.not_not] at h
    rw [h]

/-- Through the whole upload loop, the dict view of the store at each remote
basename ends at `afterFp`, provided basenames are distinct, the canonical key
of each basename normalizes back to it, and every pre-loop entry colliding
with a remote basename already lives at the canonical key. -/
theorem uploadLoop_lastFp (env : SyncEnv) (pfx : String)
    (existing : List (String × Nat)) :
    ∀ (files : List String) (store : Store) (st : Stats),
      (files.map pyBasename).Nodup →
      (∀ f ∈ files, normName pfx (s3KeyOf pfx (pyBasename f)) = pyBasename f) →
      (∀ f ∈ files, ∀ p ∈ store, normName pfx p.1 = pyBasename f →
        p.1 = s3KeyOf pfx (pyBasename f)) →
      (∀ f ∈ files, lastFp pfx store (pyBasename f) = dictGet existing (pyBasename f)) →
      ∀ f ∈ files,
        lastFp pfx (uploadLoop env pfx existing files store st).1 (pyBasename f) =
          afterFp env pfx existing f := by
  intro files
  induction files with
  | nil => intro store st _ _ _ _ f hf; cases hf
  | cons g rest ih =>
    intro store st hnodup hround hgood hagree f hf
    rw [List.map_cons, List.nodup_cons] at hnodup
    obtain ⟨hnotin, hndrest⟩ := hnodup
    have hroundg := hround g (by simp)
    have hagreeg := hagree g (by simp)
    have hroundr : ∀ r ∈ rest, normName pfx (s3KeyOf pfx (pyBasename r)) = pyBasename r :=
      fun r hr => hround r (List.mem_cons_of_mem g hr)
    have step : ∀ (store1 : Store) (st1 : Stats),
        uploadLoop env pfx existing (g :: rest) store st =
          uploadLoop env pfx existing rest store1 st1 →
        lastFp pfx store1 (pyBasename g) = afterFp env pfx existing g →
        (∀ r ∈ rest, ∀ p ∈ store1, normName pfx p.1 = pyBasename r →
          p.1 = s3KeyOf pfx (pyBasename r)) →
        (∀ r ∈ rest, lastFp pfx store1 (pyBasename r) = dictGet existing (pyBasename r)) →
        lastFp pfx (uploadLoop env pfx existing (g :: rest) store st).1 (pyBasename f) =
          afterFp env pfx existing f := by
      intro store1 st1 happ h1 h2 h3
      rw [happ]
      rcases List.mem_cons.mp hf with hfg | hfr
      · subst hfg
        rw [uploadLoop_lastFp_frame env pfx existing (pyBasename f) rest store1 st1
          (fun r hr => by
            rw [hroundr r hr]
            intro hcontra
            exact hnotin (hcontra ▸ List.mem_map_of_mem pyBasename hr))]
        exact h1
      · exact ih store1 st1 hndrest hroundr h2 h3 f hfr
    cases hc : env.fetchFile g with
    | none =>
      refine step store { st with failed := st.failed + 1 }
        (by simp only [uploadLoop, hc]) ?_ ?_ ?_
      · rw [hagreeg]
        simp [afterFp, hc]
      · exact fun r hr => hgood r (List.mem_cons_of_mem g hr)
      · exact fun r hr => hagree r (List.mem_cons_of_mem g hr)
    | some c =>
      by_cases hn : file_needs_upload env.md5 (pyBasename g) c existing
      · by_cases hp : env.putOk (s3KeyOf pfx (pyBasename g))
        · refine step (storePut store (s3KeyOf pfx (pyBasename g)) (env.md5 c))
            { st with uploaded := st.uploaded + 1 }
            (by simp only [uploadLoop, hc, if_pos hn, if_pos hp]) ?_ ?_ ?_
          · rw [lastFp_storePut_establish pfx _ _ _ hroundg store (hgood g (by simp))]
            simp [afterFp, hc, hn, hp]
          · intro r hr p hpmem hpnorm
            rcases mem_storePut hpmem with hpold | hpnew
            · exact hgood r (List.mem_cons_of_mem g hr) p hpold hpnorm
            · exfalso
              rw [hpnew] at hpnorm
              simp only at hpnorm
              rw [hroundg] at hpnorm
              exact hnotin (hpnorm ▸ List.mem_map_of_mem pyBasename hr)
          · intro r hr
            rw [lastFp_storePut_frame pfx _ _ _
              (by
                rw [hroundg]
                intro hcontra
                exact hnotin (hcontra ▸ List.mem_map_of_mem pyBasename hr)) store]
            exact hagree r (List.mem_cons_of_mem g hr)
        · refine step store { st with failed := st.failed + 1 }
            (by simp only [uploadLoop, hc, if_pos hn, if_neg hp]) ?_ ?_ ?_
          · rw [hagreeg]
            simp [afterFp, hc, hn, hp]
          · exact fun r hr => hgood r (List.mem_cons_of_mem g hr)
          · exact fun r hr => hagree r (List.mem_cons_of_mem g hr)
      · refine step store { st with skipped := st.skipped + 1 }
          (by simp only [uploadLoop, hc, if_neg hn]) ?_ ?_ ?_
        · rw [hagreeg]
          simp [afterFp, hc, hn]
        · exact fun r hr => hgood r (List.mem_cons_of_mem g hr)
        · exact fun r hr => hagree r (List.mem_cons_of_mem g hr)

/-- If no item can complete an upload (whenever its fetch succeeds and the
decision is to upload, the put fails), the upload loop leaves the store
unchanged and uploads nothing. -/
theorem uploadLoop_no_change (env : SyncEnv) (pfx : String)
    (existing : List (String × Nat)) :
    ∀ (files : List String) (store : Store) (st : Stats),
      (∀ f ∈ files, ∀ c, env.fetchFile f = some c →
        file_needs_upload env.md5 (pyBasename f) c existing = true →
        env.putOk (s3KeyOf pfx (pyBasename f)) = false) →
      (uploadLoop env pfx existing files store st).1 = store ∧
      (uploadLoop env pfx existing files store st).2.uploaded = st.uploaded := by
  intro files
  induction files with
  | nil => intro store st _; exact ⟨rfl, rfl⟩
  | cons g rest ih =>
    intro store st h
    have hrest : ∀ f ∈ rest, ∀ c, env.fetchFile f = some c →
        file_needs_upload env.md5 (pyBasename f) c existing = true →
        env.putOk (s3KeyOf pfx (pyBasename f)) = false :=
      fun f hf => h f (List.mem_cons_of_mem g hf)
    cases hc : env.fetchFile g with
    | none => simp only [uploadLoop, hc]; exact ih store _ hrest
    | some c =>
      by_cases hn : file_needs_upload env.md5 (pyBasename g) c existing
      · have hp : env.putOk (s3KeyOf pfx (pyBasename g)) = false :=
          h g (by simp) c hc hn
        simp only [uploadLoop, hc, if_pos hn, hp, Bool.false_eq_true, if_false]
        exact ih store _ hrest
      · simp only [uploadLoop, hc, if_neg hn]
        exact ih store _ hrest

/-! ## Claim C3: idempotence of the sync run -/

/-- C3: a second sync run against the same unchanged environment (same
listing, same per-file contents, same put/delete outcomes, store untouched in
between) uploads nothing and deletes nothing.  Side conditions: the parsed
items have pairwise distinct basenames, the canonical key of each basename
normalizes back to that basename, and every pre-run stored object colliding
with a remote basename lives at the canonical key. -/
theorem C3_second_run_is_noop (env : SyncEnv) (pfx : String) (store : Store)
    (links : List String) (h : env.dirListing = some links)
    (hnodup : ((parseFiles links).map pyBasename).Nodup)
    (hround : ∀ f ∈ parseFiles links,
      normName pfx (s3KeyOf pfx (pyBasename f)) = pyBasename f)
    (hgood : ∀ f ∈ parseFiles links, ∀ p ∈ store,
      normName pfx p.1 = pyBasename f → p.1 = s3KeyOf pfx (pyBasename f)) :
    (sync_bls_to_s3 env pfx (sync_bls_to_s3 env pfx store).1).2.uploaded = 0 ∧
    (sync_bls_to_s3 env pfx (sync_bls_to_s3 env pfx store).1).2.deleted = 0 := by
  have hrun1 : (sync_bls_to_s3 env pfx store).1 =
      (uploadLoop env pfx (get_existing_files pfx store) (parseFiles links) store stats0).1.filter
        (fun p => decide (normName pfx p.1 ∈ (parseFiles links).map pyBasename) ||
          !env.deleteOk p.1) := by
    rw [sync_eq_phases env pfx store links h, deleteLoop_spec]
  have hdict : ∀ f ∈ parseFiles links,
      lastFp pfx (sync_bls_to_s3 env pfx store).1 (pyBasename f) =
        afterFp env pfx (get_existing_files pfx store) f := by
    intro f hf
    rw [hrun1]
    rw [lastFp_filter_of_keep pfx (pyBasename f) _ _
      (fun p _ hpn => by simp [hpn, List.mem_map_of_mem pyBasename hf])]
    exact uploadLoop_lastFp env pfx (get_existing_files pfx store) (parseFiles links)
      store stats0 hnodup hround hgood (fun f _ => rfl) f hf
  have hnoup : ∀ f ∈ parseFiles links, ∀ c, env.fetchFile f = some c →
      file_needs_upload env.md5 (pyBasename f) c
        (get_existing_files pfx (sync_bls_to_s3 env pfx store).1) = true →
      env.putOk (s3KeyOf pfx (pyBasename f)) = false := by
    intro f hf c hc hneeds
    cases hpv : env.putOk (s3KeyOf pfx (pyBasename f)) with
    | false => rfl
    | true =>
      exfalso
      have hafter : afterFp env pfx (get_existing_files pfx store) f =
          some (env.md5 c) := by
        unfold afterFp
        rw [hc]
        by_cases hn1 : file_needs_upload env.md5 (pyBasename f) c
            (get_existing_files pfx store)
        · simp [hn1, hpv]
        · have hd := dictGet_of_not_needs env.md5 (pyBasename f) c
            (get_existing_files pfx store) (by simpa using hn1)
          rw [pyLstripSlash_pyBasename] at hd
          simp [hn1, hd]
      have hval : dictGet (get_existing_files pfx (sync_bls_to_s3 env pfx store).1)
          (pyBasename f) = some (env.md5 c) := by
        have hx := hdict f hf
        rw [hafter] at hx
        exact hx
      have hfalse : file_needs_upload env.md5 (pyBasename f) c
          (get_existing_files pfx (sync_bls_to_s3 env pfx store).1) = false := by
        have hdef : file_needs_upload env.md5 (pyBasename f) c
            (get_existing_files pfx (sync_bls_to_s3 env pfx store).1) =
            (match dictGet (get_existing_files pfx (sync_bls_to_s3 env pfx store).1)
                (pyLstripSlash (pyBasename f)) with
             | none => true
             | some e => decide (e ≠ env.md5 c)) := rfl
        rw [hdef, pyLstripSlash_pyBasename, hval]
        simp
      rw [hfalse] at hneeds
      cases hneeds
  obtain ⟨hA, hB⟩ := uploadLoop_no_change env pfx
    (get_existing_files pfx (sync_bls_to_s3 env pfx store).1) (parseFiles links)
    (sync_bls_to_s3 env pfx store).1 stats0 hnoup
  have hzero : ((sync_bls_to_s3 env pfx store).1.filter
      (fun p => !decide (normName pfx p.1 ∈ (parseFiles links).map pyBasename) &&
        env.deleteOk p.1)) = [] := by
    rw [List.filter_eq_nil_iff]
    intro p hp
    rw [hrun1] at hp
    have hkeep := List.of_mem_filter hp
    cases hmem : decide (normName pfx p.1 ∈ (parseFiles links).map pyBasename) with
    | true => simp [hmem]
    | false =>
      rw [hmem] at hkeep
      simp only [Bool.false_or] at hkeep
      simpa using hkeep
  have hdel0 : (uploadLoop env pfx
      (get_existing_files pfx (sync_bls_to_s3 env pfx store).1) (parseFiles links)
      (sync_bls_to_s3 env pfx store).1 stats0).2.deleted = 0 :=
    (uploadLoop_total env pfx _ (parseFiles links) _ stats0).2
  rw [sync_eq_phases env pfx (sync_bls_to_s3 env pfx store).1 links h,
    deleteLoop_spec, hA]
  constructor
  · simpa using hB
  · rw [hzero]
    simpa using hdel0

/-- Witness for C3: the side conditions hold at the concrete run and the
second run uploads and deletes nothing. -/
theorem C3_second_run_is_noop_witness :
    (((parseFiles ["pr.data.0", "pr.data.1"]).map pyBasename).Nodup ∧
      (∀ f ∈ parseFiles ["pr.data.0", "pr.data.1"],
        normName "bls-data/" (s3KeyOf "bls-data/" (pyBasename f)) = pyBasename f) ∧
      (∀ f ∈ parseFiles ["pr.data.0", "pr.data.1"], ∀ p ∈ storeC3w,
        normName "bls-data/" p.1 = pyBasename f →
          p.1 = s3KeyOf "bls-data/" (pyBasename f))) ∧
    ((sync_bls_to_s3 envC3w "bls-data/"
        (sync_bls_to_s3 envC3w "bls-data/" storeC3w).1).2.uploaded = 0 ∧
      (sync_bls_to_s3 envC3w "bls-data/"
        (sync_bls_to_s3 envC3w "bls-data/" storeC3w).1).2.deleted = 0) :=
  ⟨⟨by decide, by decide, by decide⟩,
   C3_second_run_is_noop envC3w "bls-data/" storeC3w ["pr.data.0", "pr.data.1"]
     rfl (by decide) (by decide) (by decide)⟩

/-- C8: Task A filters to the inclusive range [2013, 2018] and returns ERROR
when nothing matches; otherwise SUCCESS with the skipna mean, the sample
variance (whose square root the code reports as std), the sorted distinct
years present, and the row count.  On the scenario rows
2013↦300, 2014↦305, 2015↦310 it yields mean 305 and row count 3. -/
theorem C8_population_stats :
    (task_a_population_stats popC8w =
      Except.ok ⟨Status.SUCCESS, 305, 25, [2013, 2014, 2015], 3⟩) ∧
    ∀ pop : PopFrame, "year" ∈ pop.cols → "population" ∈ pop.cols →
      ((pop.rows.filter popYearInRange).length = 0 →
        task_a_population_stats pop = Except.ok ⟨Status.ERROR, 0, 0, [], 0⟩) ∧
      ((pop.rows.filter popYearInRange).length ≠ 0 →
        ∃ rep, task_a_population_stats pop = Except.ok rep ∧
          rep.status = Status.SUCCESS ∧
          rep.rowCount = (pop.rows.filter popYearInRange).length ∧
          rep.mean =
            ((pop.rows.filter popYearInRange).filterMap (fun r => r.population)).sum /
              (((pop.rows.filter popYearInRange).filterMap (fun r => r.population)).length : ℚ) ∧
          rep.years.Sorted (fun a b : Int => a ≤ b) ∧ rep.years.Nodup ∧
          (∀ y : Int, y ∈ rep.years ↔
            ∃ r ∈ pop.rows, r.year = some y ∧ 2013 ≤ y ∧ y ≤ 2018)) := by
  constructor
  · norm_num [task_a_population_stats, popC8w, popYearInRange, List.filter,
      List.filterMap, List.insertionSort, List.orderedInsert, List.dedup]
  · intro pop hy hp
    constructor
    · intro h0
      simp [task_a_population_stats, hy, h0]
    · intro hne
      have hrun : task_a_population_stats pop = Except.ok
          ⟨Status.SUCCESS,
           ((pop.rows.filter popYearInRange).filterMap (fun r => r.population)).sum /
             (((pop.rows.filter popYearInRange).filterMap (fun r => r.population)).length : ℚ),
           (((pop.rows.filter popYearInRange).filterMap (fun r => r.population)).map
              (fun x => (x -
                ((pop.rows.filter popYearInRange).filterMap (fun r => r.population)).sum /
                  (((pop.rows.filter popYearInRange).filterMap
                    (fun r => r.population)).length : ℚ)) ^ 2)).sum /
             ((((pop.rows.filter popYearInRange).filterMap
                (fun r => r.population)).length : ℚ) - 1),
           List.insertionSort (fun a b : Int => a ≤ b)
             (((pop.rows.filter popYearInRange).filterMap (fun r => r.year)).dedup),
           (pop.rows.filter popYearInRange).length⟩ := by
        simp [task_a_population_stats, hy, hp, hne]
      refine ⟨_, hrun, rfl, rfl, rfl, ?_, ?_, ?_⟩
      · exact List.sorted_insertionSort (fun a b : Int => a ≤ b) _
      · exact (List.perm_insertionSort (fun a b : Int => a ≤ b) _).nodup_iff.mpr
          (List.nodup_dedup _)
      · intro y
        rw [(List.perm_insertionSort (fun a b : Int => a ≤ b) _).mem_iff, List.mem_dedup,
          List.mem_filterMap]
        constructor
        · rintro ⟨r, hr, hry⟩
          obtain ⟨hrmem, hrp⟩ := List.mem_filter.mp hr
          refine ⟨r, hrmem, hry, ?_, ?_⟩ <;>
            · rw [popYearInRange, hry] at hrp
              simp at hrp
              omega
        · rintro ⟨r, hrmem, hry, h1, h2⟩
          refine ⟨r, List.mem_filter.mpr ⟨hrmem, ?_⟩, hry⟩
          rw [popYearInRange, hry]
          simp
          omega

/-- Witness for C8: the hypotheses hold at a concrete frame whose filter is
empty, and the report is ERROR. -/
theorem C8_population_stats_witness :
    ("year" ∈ popC8empty.cols ∧ "population" ∈ popC8empty.cols ∧
      (popC8empty.rows.filter popYearInRange).length = 0) ∧
    task_a_population_stats popC8empty = Except.ok ⟨Status.ERROR, 0, 0, [], 0⟩ :=
  ⟨⟨by decide, by decide, by decide⟩,
   (C8_population_stats.2 popC8empty (by decide) (by decide)).1 (by decide)⟩

/-! ## Claim C6: Task C unified report -/

/-- With pairwise distinct year keys in the population table, at most one
population row matches any year. -/
theorem filter_year_len_le_one (y : Option Int) :
    ∀ pop : List PopRow, (pop.map (fun p => p.year)).Nodup →
      (pop.filter (fun p => decide (p.year = y))).length ≤ 1 := by
  intro pop
  induction pop with
  | nil => intro _; simp
  | cons p rest ih =>
    intro hnd
    rw [List.map_cons, List.nodup_cons] at hnd
    by_cases hp : p.year = y
    · rw [List.filter_cons_of_pos (by simpa using hp)]
      have hrest : rest.filter (fun q => decide (q.year = y)) = [] := by
        rw [List.filter_eq_nil_iff]
        intro q hq hqy
        apply hnd.1
        have hq2 : q.year = y := by simpa using hqy
        have hpq : p.year = q.year := by rw [hp, hq2]
        rw [hpq]
        exact List.mem_map_of_mem (fun p => p.year) hq
      rw [hrest]
      simp
    · rw [List.filter_cons_of_neg (by simpa using hp)]
      exact ih hnd.2

/-- Under distinct population year keys, filtering the left-merged table by
(series_id, period) yields exactly one row per matching time-series row. -/
theorem mergeLeft_filter_length (pop : List PopRow) (sid per : String)
    (hnodup : (pop.map (fun p => p.year)).Nodup) :
    ∀ bls : List BlsRow,
      ((mergeLeftOnYear bls pop).filter
        (fun r => decide (r.series_id = sid) && decide (r.period = per))).length =
      (bls.filter (fun r => decide (r.series_id = sid) && decide (r.period = per))).length := by
  intro bls
  induction bls with
  | nil => rfl
  | cons r rest ih =>
    have hexp : mergeLeftOnYear (r :: rest) pop =
        (match pop.filter (fun p => decide (p.year = r.year)) with
         | [] => [⟨r.series_id, r.year, r.period, r.value, none⟩]
         | m :: ms => (m :: ms).map
            (fun p => ⟨r.series_id, r.year, r.period, r.value, p.population⟩)) ++
          mergeLeftOnYear rest pop := by
      simp [mergeLeftOnYear]
    rw [hexp, List.filter_append, List.length_append, ih]
    by_cases hr : (decide (r.series_id = sid) && decide (r.period = per)) = true
    · cases hm : pop.filter (fun p => decide (p.year = r.year)) with
      | nil =>
        simp [List.filter_cons, hr]
        omega
      | cons m ms =>
        have hlen : (m :: ms).length ≤ 1 := by
          rw [← hm]
          exact filter_year_len_le_one r.year pop hnodup
        have hms : ms = [] := by
          cases ms with
          | nil => rfl
          | cons a b => simp at hlen
        subst hms
        simp [List.filter_cons, hr]
        omega
    · cases hm : pop.filter (fun p => decide (p.year = r.year)) with
      | nil =>
        simp [List.filter_cons, hr]
      | cons m ms =>
        have hlen : (m :: ms).length ≤ 1 := by
          rw [← hm]
          exact filter_year_len_le_one r.year pop hnodup
        have hms : ms = [] := by
          cases ms with
          | nil => rfl
          | cons a b => simp at hlen
        subst hms
        simp [List.filter_cons, hr]

/-- C6: the left join preserves every time-series row (with a null population
when no population row matches its year), and — when the population year keys
are distinct — the filtered unified report has exactly one row per
time-series row matching the requested (series_id, period); an empty filter
result gives ERROR status. -/
theorem C6_unified_report (bls : BlsFrame) (pop : PopFrame) (sid per : String)
    (h1 : "year" ∈ pop.cols) (h2 : "population" ∈ pop.cols)
    (h3 : "year" ∈ bls.cols) (h4 : "series_id" ∈ bls.cols) (h5 : "period" ∈ bls.cols)
    (h6 : "value" ∈ bls.cols)
    (hnodup : (pop.rows.map (fun p => p.year)).Nodup) :
    (∀ r ∈ bls.rows, pop.rows.filter (fun p => decide (p.year = r.year)) = [] →
      CRow.mk r.series_id r.year r.period r.value none ∈ mergeLeftOnYear bls.rows pop.rows) ∧
    ((bls.rows.filter (fun r => decide (r.series_id = sid) && decide (r.period = per))).length = 0 →
      task_c_unified_report bls pop sid per = Except.ok ⟨Status.ERROR, sid, per, 0, []⟩) ∧
    ((bls.rows.filter (fun r => decide (r.series_id = sid) && decide (r.period = per))).length ≠ 0 →
      ∃ rep, task_c_unified_report bls pop sid per = Except.ok rep ∧
        rep.status = Status.SUCCESS ∧
        rep.rowCount =
          (bls.rows.filter (fun r => decide (r.series_id = sid) && decide (r.period = per))).length) := by
  refine ⟨?_, ?_, ?_⟩
  · intro r hr hempty
    unfold mergeLeftOnYear
    rw [List.mem_flatMap]
    refine ⟨r, hr, ?_⟩
    rw [hempty]
    simp
  · intro h0
    have hlen := mergeLeft_filter_length pop.rows sid per hnodup bls.rows
    rw [h0] at hlen
    simp [task_c_unified_report, h1, h2, h3, h4, h5, hlen]
  · intro hne
    have hlen := mergeLeft_filter_length pop.rows sid per hnodup bls.rows
    have hfne : ((mergeLeftOnYear bls.rows pop.rows).filter
        (fun r => decide (r.series_id = sid) && decide (r.period = per))).length ≠ 0 := by
      rw [hlen]; exact hne
    refine ⟨⟨Status.SUCCESS, sid, per,
      ((mergeLeftOnYear bls.rows pop.rows).filter
        (fun r => decide (r.series_id = sid) && decide (r.period = per))).length,
      (mergeLeftOnYear bls.rows pop.rows).filter
        (fun r => decide (r.series_id = sid) && decide (r.period = per))⟩, ?_, rfl, ?_⟩
    · simp [task_c_unified_report, h1, h2, h3, h4, h5, h6, hfne]
    · exact hlen

/-- Witness for C6: all hypotheses hold at the concrete frames and the report
is SUCCESS with one row per matching time-series row (the 2021 row is kept
despite having no population match). -/
theorem C6_unified_report_witness :
    (("year" ∈ popC6w.cols ∧ "population" ∈ popC6w.cols ∧ "year" ∈ blsC6w.cols ∧
      "series_id" ∈ blsC6w.cols ∧ "period" ∈ blsC6w.cols ∧ "value" ∈ blsC6w.cols ∧
      (popC6w.rows.map (fun p => p.year)).Nodup) ∧
      (blsC6w.rows.filter
        (fun r => decide (r.series_id = "PRS30006032") && decide (r.period = "Q01"))).length ≠ 0) ∧
    ∃ rep, task_c_unified_report blsC6w popC6w "PRS30006032" "Q01" = Except.ok rep ∧
      rep.status = Status.SUCCESS ∧
      rep.rowCount = (blsC6w.rows.filter
        (fun r => decide (r.series_id = "PRS30006032") && decide (r.period = "Q01"))).length :=
  ⟨⟨⟨by decide, by decide, by decide, by decide, by decide, by decide, by decide⟩, by decide⟩,
   (C6_unified_report blsC6w popC6w "PRS30006032" "Q01" (by decide) (by decide) (by decide)
     (by decide) (by decide) (by decide) (by decide)).2.2 (by decide)⟩

/-! ## Claim C7: Task B best-year report -/

/-- An entry surviving `drop_duplicates(keep='first')` is an entry of the
input list. -/
theorem mem_dropDupSeries : ∀ (l : List BEntry) (seen : List String) (e : BEntry),
    e ∈ dropDupSeries seen l → e ∈ l := by
  intro l
  induction l with
  | nil => intro seen e h; cases h
  | cons x xs ih =>
    intro seen e h
    unfold dropDupSeries at h
    by_cases hx : x.series_id ∈ seen
    · rw [if_pos hx] at h
      exact List.mem_cons_of_mem x (ih seen e h)
    · rw [if_neg hx] at h
      rcases List.mem_cons.mp h with he | he
      · exact he ▸ List.mem_cons_self x xs
      · exact List.mem_cons_of_mem x (ih (x.series_id :: seen) e he)

/-- An entry surviving the dedup was not of an already-seen series. -/
theorem dropDupSeries_not_seen : ∀ (l : List BEntry) (seen : List String) (e : BEntry),
    e ∈ dropDupSeries seen l → e.series_id ∉ seen := by
  intro l
  induction l with
  | nil => intro seen e h; cases h
  | cons x xs ih =>
    intro seen e h
    unfold dropDupSeries at h
    by_cases hx : x.series_id ∈ seen
    · rw [if_pos hx] at h
      exact ih seen e h
    · rw [if_neg hx] at h
      rcases List.mem_cons.mp h with he | he
      · rw [he]; exact hx
      · intro hmem
        exact ih (x.series_id :: seen) e he (List.mem_cons_of_mem _ hmem)

/-- In a descending-sorted list, the surviving first entry of each series has
the maximum value among that series' entries. -/
theorem dropDupSeries_max : ∀ (l : List BEntry) (seen : List String),
    List.Sorted valGe l →
    ∀ e ∈ dropDupSeries seen l, ∀ k ∈ l, k.series_id = e.series_id →
      k.value ≤ e.value := by
  intro l
  induction l with
  | nil => intro seen _ e he; cases he
  | cons x xs ih =>
    intro seen hsorted e he k hk hks
    have hx_all := (List.sorted_cons.mp hsorted).1
    have hxs_sorted := (List.sorted_cons.mp hsorted).2
    unfold dropDupSeries at he
    by_cases hx : x.series_id ∈ seen
    · rw [if_pos hx] at he
      rcases List.mem_cons.mp hk with hkx | hkxs
      · exfalso
        have : e.series_id ∉ seen := dropDupSeries_not_seen xs seen e he
        rw [hkx] at hks
        exact this (hks ▸ hx)
      · exact ih seen hxs_sorted e he k hkxs hks
    · rw [if_neg hx] at he
      rcases List.mem_cons.mp he with hex | hexs
      · subst hex
        rcases List.mem_cons.mp hk with hkx | hkxs
        · rw [hkx]
        · exact hx_all k hkxs
      · rcases List.mem_cons.mp hk with hkx | hkxs
        · exfalso
          have : e.series_id ∉ x.series_id :: seen :=
            dropDupSeries_not_seen xs (x.series_id :: seen) e hexs
          rw [hkx] at hks
          exact this (by rw [← hks]; exact List.mem_cons_self _ _)
        · exact ih (x.series_id :: seen) hxs_sorted e hexs k hkxs hks

/-- C7: Task B returns ERROR when a required column is missing; otherwise
every reported best entry is one of the per-(series_id, year) sums and
carries the maximum summed value of its series; on the scenario frame it
yields S1→2020 (100) and S2→2020 (10). -/
theorem C7_best_year_report :
    (∀ bls : BlsFrame,
      ("series_id" ∉ bls.cols ∨ "year" ∉ bls.cols ∨ "value" ∉ bls.cols) →
      (task_b_best_year_report bls).status = Status.ERROR) ∧
    (∀ bls : BlsFrame,
      "series_id" ∈ bls.cols → "year" ∈ bls.cols → "value" ∈ bls.cols →
      ∀ e ∈ (task_b_best_year_report bls).results,
        e ∈ annualSums bls ∧
        ∀ k ∈ annualSums bls, k.series_id = e.series_id → k.value ≤ e.value) ∧
    (task_b_best_year_report blsC7w =
      ⟨Status.SUCCESS, 2, [⟨"S1", 2020, 100⟩, ⟨"S2", 2020, 10⟩], 2⟩) := by
  refine ⟨?_, ?_, ?_⟩
  · intro bls hmissing
    have hcond : ¬("series_id" ∈ bls.cols ∧ "year" ∈ bls.cols ∧ "value" ∈ bls.cols) := by
      tauto
    simp [task_b_best_year_report, hcond]
  · intro bls h1 h2 h3 e he
    have hcond : "series_id" ∈ bls.cols ∧ "year" ∈ bls.cols ∧ "value" ∈ bls.cols :=
      ⟨h1, h2, h3⟩
    rw [task_b_best_year_report, if_pos hcond] at he
    simp only at he
    have hbest : e ∈ dropDupSeries [] (List.insertionSort valGe (annualSums bls)) :=
      List.take_subset 10 _ he
    have hsortmem : e ∈ List.insertionSort valGe (annualSums bls) :=
      mem_dropDupSeries _ [] e hbest
    have hmem : e ∈ annualSums bls :=
      (List.perm_insertionSort valGe (annualSums bls)).mem_iff.mp hsortmem
    refine ⟨hmem, ?_⟩
    intro k hk hks
    exact dropDupSeries_max (List.insertionSort valGe (annualSums bls)) []
      (List.sorted_insertionSort valGe (annualSums bls)) e hbest k
      ((List.perm_insertionSort valGe (annualSums bls)).mem_iff.mpr hk) hks
  · norm_num +decide [task_b_best_year_report, annualSums, bKeyRows, dedupKeysFirst,
      dropDupSeries, List.insertionSort, List.orderedInsert, valGe, blsC7w,
      List.filter, List.filterMap, List.foldl]

/-- Witness for C7: the column hypotheses hold at the scenario frame, and the
reported S1 entry is an annual sum carrying the maximum value of series S1. -/
theorem C7_best_year_report_witness :
    ("series_id" ∈ blsC7w.cols ∧ "year" ∈ blsC7w.cols ∧ "value" ∈ blsC7w.cols) ∧
    (BEntry.mk "S1" 2020 100 ∈ annualSums blsC7w ∧
      ∀ k ∈ annualSums blsC7w, k.series_id = "S1" → k.value ≤ 100) := by
  refine ⟨⟨by decide, by decide, by decide⟩, ?_⟩
  have hmem : BEntry.mk "S1" 2020 100 ∈ (task_b_best_year_report blsC7w).results := by
    rw [C7_best_year_report.2.2]
    simp
  have h := C7_best_year_report.2.1 blsC7w (by decide) (by decide) (by decide)
    (BEntry.mk "S1" 2020 100) hmem
  exact ⟨h.1, fun k hk hks => h.2 k hk hks⟩

/-- C9: each report's slot in the pipeline result is exactly its own
independent run under its own failure boundary — no task's outcome enters
another task's slot — and the overall success flag is true exactly when all
three reports have SUCCESS status.  At the concrete frames, Task A fails with
ERROR while Tasks B and C still run and succeed, and overall success is
false. -/
theorem C9_report_isolation :
    (∀ (bls : BlsFrame) (pop : PopFrame),
      (run_analytics bls pop).task_a = wrapA (task_a_population_stats pop) ∧
      (run_analytics bls pop).task_b = task_b_best_year_report bls ∧
      (run_analytics bls pop).task_c =
        wrapC "PRS30006032" "Q01" (task_c_unified_report bls pop "PRS30006032" "Q01") ∧
      ((run_analytics bls pop).success = true ↔
        ((run_analytics bls pop).task_a.status = Status.SUCCESS ∧
         (run_analytics bls pop).task_b.status = Status.SUCCESS ∧
         (run_analytics bls pop).task_c.status = Status.SUCCESS))) ∧
    ((run_analytics blsC9w popC9w).task_a.status = Status.ERROR ∧
      (run_analytics blsC9w popC9w).task_b.status = Status.SUCCESS ∧
      (run_analytics blsC9w popC9w).task_c.status = Status.SUCCESS ∧
      (run_analytics blsC9w popC9w).success = false) := by
  constructor
  · intro bls pop
    refine ⟨rfl, rfl, rfl, ?_⟩
    simp [run_analytics, and_assoc]
  · refine ⟨by decide, by decide, by decide, by decide⟩
